import Mathlib

/-!
Verification of the supervised watch-worker (`worker.notifyWorker`) and the
logger API endpoint of this repository, via a shallow embedding in Lean.

The worker's control loop (`loop`), its lifecycle operations (`Kill`, `Wait`,
`Stop`) and the logger's `LoggingConfig` are embedded from the source.  The
death latch (`tomb.Tomb`) and `watcher.Stop` are not present under the sources
given, so they are modelled from the specification's description of the
DeathRecorder and of the release step (first genuine error wins, the sentinel
clean-shutdown reason is upgradeable).
-/

namespace NotifyWorker

/-- Go errors: `none` is nil; `Err.errDying` is the distinguished sentinel
`tomb.ErrDying`; every other error carries its message. -/
inductive Err where
  | errDying : Err
  | msg : String → Err
deriving DecidableEq, Repr

/-- State of the death latch's reason cell: `stillAlive` before any kill,
or a recorded reason (possibly the nil clean-shutdown sentinel). -/
inductive TombReason where
  | stillAlive : TombReason
  | latched : Option Err → TombReason
deriving DecidableEq, Repr

/-- Modelled from the spec: the DeathRecorder latch (`tomb.Kill`).  A sentinel
or nil reason may be upgraded to a real error, but once a non-nil error is
latched no later latch attempt changes it, and the `ErrDying` sentinel never
replaces the current reason. -/
def tombKill (t : TombReason) (reason : Option Err) : TombReason :=
  if reason = some Err.errDying then t
  else
    match t with
    | .stillAlive => .latched reason
    | .latched none => .latched reason
    | .latched (some e) => .latched (some e)

/-- Reason read back by `Wait` once the worker is dead. -/
def reasonOf : TombReason → Option Err
  | .stillAlive => none
  | .latched r => r

/-- Modelled from the spec: `watcher.Stop(w, t)` releases the watcher and, if
the release reports an error, latches that error into the death recorder. -/
def watcherStop (releaseErr : Option Err) (t : TombReason) : TombReason :=
  match releaseErr with
  | some e => tombKill t (some e)
  | none => t

/-- Behaviour of a `WatchHandler` together with its watcher, as the loop
observes it: whether `SetUp` returns a non-nil watcher, the error `SetUp`
returns, the error the k-th `Handle` call returns, and the error the
watcher's `Stop` (release) returns. -/
structure WatchHandler where
  setupWatcher : Bool
  setupErr : Option Err
  handleErr : Nat → Option Err
  releaseErr : Option Err

/-- Observable calls made by the loop, in order. -/
inductive Action where
  | setup : Action
  | handle : Action
  | release : Action
  | teardown : Action
deriving DecidableEq, Repr

/-- One resolution of the loop's `select`: either the tomb's dying channel
fires (shutdown was requested) or the watcher delivers a change. -/
inductive Event where
  | dying : Event
  | change : Event
deriving DecidableEq, Repr

/-- The `for { select ... } }` part of `loop`: on a dying event return
`tomb.ErrDying`; on a change call `Handle` and return its error if non-nil,
else keep looping.  `k` counts the `Handle` calls already made.  `none` means
the schedule ended with the loop still blocked. -/
def selectLoop (h : WatchHandler) : List Event → Nat → Option (List Action × Err)
  | [], _ => none
  | Event.dying :: _, _ => some ([], Err.errDying)
  | Event.change :: rest, k =>
    match h.handleErr k with
    | some e => some ([Action.handle], e)
    | none =>
      match selectLoop h rest (k + 1) with
      | none => none
      | some (acts, r) => some (Action.handle :: acts, r)

/-- The body of `notifyWorker.loop` with its deferred calls unwound:
`TearDown` is deferred first, the watcher release second (so release runs
before `TearDown`), and the release latches its error into the tomb.
Returns the action trace, the loop's return value, and the tomb state after
the deferred release ran. -/
def loopRun (h : WatchHandler) (events : List Event) (t : TombReason) :
    Option (List Action × Err × TombReason) :=
  match h.setupErr with
  | some e =>
    if h.setupWatcher then
      -- non-nil watcher alongside a SetUp error: released at once, its own
      -- error not propagated; then the deferred TearDown runs
      some ([Action.setup, Action.release, Action.teardown], e, t)
    else
      some ([Action.setup, Action.teardown], e, t)
  | none =>
    if h.setupWatcher then
      match selectLoop h events 0 with
      | none => none
      | some (acts, r) =>
        some (Action.setup :: acts ++ [Action.release, Action.teardown], r,
              watcherStop h.releaseErr t)
    else
      some ([Action.setup, Action.teardown],
            Err.msg "SetUp returned a nil Watcher", t)

/-- Everything `Wait` and the tests can observe of one worker run. -/
structure RunResult where
  actions : List Action
  waitResult : Option Err
deriving DecidableEq, Repr

/-- A whole run of `NewNotifyWorker`'s goroutine: the loop runs against the
schedule `events`, then `nw.tomb.Kill(nw.loop())` latches the loop's return
value, then `Done` (which kills with nil) marks the tomb dead.  `killed`
records whether `Kill()` was invoked before the loop exited (so the tomb
already held the nil sentinel at unwind time). -/
def runWorker (h : WatchHandler) (events : List Event) (killed : Bool) :
    Option RunResult :=
  let t0 : TombReason := if killed then .latched none else .stillAlive
  match loopRun h events t0 with
  | none => none
  | some (acts, r, t1) =>
    let t2 := tombKill t1 (some r)
    let t3 := tombKill t2 none
    some { actions := acts, waitResult := reasonOf t3 }

/-- Observer-visible tomb state: the reason cell plus whether the dead
channel is closed. -/
structure TombState where
  reason : TombReason
  dead : Bool
deriving DecidableEq, Repr

/-- Embedding of `notifyWorker.Kill`: `nw.tomb.Kill(nil)`. -/
def workerKillOp (t : TombState) : TombState :=
  { reason := tombKill t.reason none, dead := t.dead }

/-- Embedding of `notifyWorker.Wait`: blocks until dead (`none` while
blocked), then returns the latched reason. -/
def workerWaitOp (t : TombState) : Option (Option Err) :=
  if t.dead then some (reasonOf t.reason) else none

/-- Embedding of `notifyWorker.Stop`: `nw.tomb.Kill(nil)` then
`nw.tomb.Wait()`, written out as the source has it. -/
def workerStopOp (t : TombState) : TombState × Option (Option Err) :=
  let t1 : TombState := { reason := tombKill t.reason none, dead := t.dead }
  (t1, if t1.dead then some (reasonOf t1.reason) else none)

end NotifyWorker

namespace LoggerAPI

open NotifyWorker (Err)

/-- Result of `common.ErrPerm`. -/
def errPerm : Err := Err.msg "permission denied"

/-- Per-entity entry of `params.StringResults`. -/
structure StringResult where
  result : String
  error : Option Err
deriving DecidableEq, Repr

/-- The body of `LoggingConfig`'s loop for one entity: start from `ErrPerm`;
if the caller owns the entity, the branch taken depends on whether fetching
the environ config FAILED (`configErr != nil`): on failure the config's
logging value is copied into the result and the error cleared, on success
the (nil) `configErr` is assigned to the error and the result left empty. -/
def loggingConfigEntry (authOwner : String → Bool) (configErr : Option Err)
    (loggingValue : String) (tag : String) : StringResult :=
  if authOwner tag then
    if configErr ≠ none then
      { result := loggingValue, error := none }
    else
      { result := "", error := configErr }
  else
    { result := "", error := some errPerm }

/-- Embedding of `loggerAPI.LoggingConfig`: one `StringResult` per entity. -/
def LoggingConfig (authOwner : String → Bool) (configErr : Option Err)
    (loggingValue : String) (tags : List String) : List StringResult :=
  tags.map (loggingConfigEntry authOwner configErr loggingValue)

end LoggerAPI

namespace NotifyWorker

/-! Helper lemmas about the latch and the loop. -/

theorem tombKill_latched_some (e : Err) (r : Option Err) :
    tombKill (TombReason.latched (some e)) r = TombReason.latched (some e) := by
  unfold tombKill
  split <;> rfl

theorem tombKill_latched_none (r : Option Err) (hr : r ≠ some Err.errDying) :
    tombKill (TombReason.latched none) r = TombReason.latched r := by
  unfold tombKill
  simp [hr]

theorem tombKill_stillAlive (r : Option Err) (hr : r ≠ some Err.errDying) :
    tombKill TombReason.stillAlive r = TombReason.latched r := by
  unfold tombKill
  simp [hr]

theorem tombKill_errDying (t : TombReason) :
    tombKill t (some Err.errDying) = t := by
  unfold tombKill
  simp

theorem selectLoop_dying (h : WatchHandler) (rest : List Event) (k : Nat) :
    selectLoop h (Event.dying :: rest) k = some ([], Err.errDying) := rfl

theorem selectLoop_change_err (h : WatchHandler) (rest : List Event) (k : Nat)
    (e : Err) (he : h.handleErr k = some e) :
    selectLoop h (Event.change :: rest) k = some ([Action.handle], e) := by
  simp [selectLoop, he]

theorem selectLoop_change_ok (h : WatchHandler) (rest : List Event) (k : Nat)
    (he : h.handleErr k = none) :
    selectLoop h (Event.change :: rest) k =
      match selectLoop h rest (k + 1) with
      | none => none
      | some p => some (Action.handle :: p.1, p.2) := by
  simp only [selectLoop, he]
  cases selectLoop h rest (k + 1) with
  | none => rfl
  | some p => rfl

/-- Running the select loop through a block of `m` changes whose `Handle`
calls all succeed prepends `m` handle actions and continues with the rest of
the schedule. -/
theorem selectLoop_replicate (h : WatchHandler) (m : Nat) :
    ∀ (j : Nat) (es : List Event),
    (∀ i, i < m → h.handleErr (j + i) = none) →
    selectLoop h (List.replicate m Event.change ++ es) j =
      match selectLoop h es (j + m) with
      | none => none
      | some p => some (List.replicate m Action.handle ++ p.1, p.2) := by
  induction m with
  | zero =>
    intro j es _
    simp only [List.replicate, List.nil_append, Nat.add_zero]
    cases hsel : selectLoop h es j with
    | none => rfl
    | some p => simp
  | succ m ih =>
    intro j es hnone
    have h0 : h.handleErr j = none := by
      have := hnone 0 (Nat.succ_pos m)
      simpa using this
    have hrest : ∀ i, i < m → h.handleErr (j + 1 + i) = none := by
      intro i hi
      have := hnone (i + 1) (Nat.succ_lt_succ hi)
      have e : j + (i + 1) = j + 1 + i := by omega
      rwa [e] at this
    rw [List.replicate_succ, List.cons_append,
        selectLoop_change_ok h _ j h0, ih (j + 1) es hrest]
    have e2 : j + 1 + m = j + (m + 1) := by omega
    rw [e2]
    cases hsel : selectLoop h es (j + (m + 1)) with
    | none => rfl
    | some p => simp [List.replicate_succ]

/-- The trace of the select loop is always a block of handle actions. -/
theorem selectLoop_acts_replicate (h : WatchHandler) :
    ∀ (events : List Event) (j : Nat) (acts : List Action) (r : Err),
    selectLoop h events j = some (acts, r) →
    ∃ n, acts = List.replicate n Action.handle := by
  intro events
  induction events with
  | nil =>
    intro j acts r hsel
    simp [selectLoop] at hsel
  | cons e rest ih =>
    intro j acts r hsel
    cases e with
    | dying =>
      rw [selectLoop_dying] at hsel
      exact ⟨0, by simpa using congrArg (fun p => p.1) (Option.some.inj hsel).symm⟩
    | change =>
      cases hk : h.handleErr j with
      | some e' =>
        rw [selectLoop_change_err h rest j e' hk] at hsel
        exact ⟨1, by simpa using congrArg (fun p => p.1) (Option.some.inj hsel).symm⟩
      | none =>
        rw [selectLoop_change_ok h rest j hk] at hsel
        cases hsel2 : selectLoop h rest (j + 1) with
        | none => rw [hsel2] at hsel; simp at hsel
        | some p =>
          rw [hsel2] at hsel
          obtain ⟨n, hn⟩ := ih (j + 1) p.1 p.2 (by rw [hsel2])
          refine ⟨n + 1, ?_⟩
          have h1 : acts = Action.handle :: p.1 := by
            simpa using congrArg (fun q => q.1) (Option.some.inj hsel).symm
          rw [h1, hn, List.replicate_succ]

/-- Unfolding of `loopRun` when `SetUp` succeeds with a watcher. -/
theorem loopRun_adopted (h : WatchHandler) (events : List Event) (t : TombReason)
    (hs : h.setupErr = none) (hw : h.setupWatcher = true) :
    loopRun h events t =
      match selectLoop h events 0 with
      | none => none
      | some p =>
        some (Action.setup :: p.1 ++ [Action.release, Action.teardown], p.2,
              watcherStop h.releaseErr t) := by
  unfold loopRun
  rw [hs, hw]
  simp only [if_true]
  cases hsel : selectLoop h events 0 with
  | none => rfl
  | some p => rfl

/-- Exiting the select loop through a `Handle` failure on the (k+1)-th
notification: the trace is k+1 handle calls and the loop returns the
`Handle` error. -/
theorem selectLoop_handle_error (h : WatchHandler) (k : Nat) (rest : List Event)
    (E : Err) (hh : ∀ j, j < k → h.handleErr j = none)
    (hk : h.handleErr k = some E) :
    selectLoop h (List.replicate k Event.change ++ Event.change :: rest) 0 =
      some (List.replicate (k + 1) Action.handle, E) := by
  rw [selectLoop_replicate h k 0 (Event.change :: rest)
        (by intro i hi; simpa using hh i hi),
      selectLoop_change_err h rest (0 + k) E (by simpa using hk)]
  simp [List.replicate_succ']

/-- Counting teardown actions in the adopted-watcher trace shape. -/
theorem count_teardown_shape (n : Nat) :
    (Action.setup :: List.replicate n Action.handle ++
      [Action.release, Action.teardown]).count Action.teardown = 1 := by
  induction n with
  | zero => decide
  | succ m ih =>
    rw [List.replicate_succ]
    simpa [List.count_cons] using ih

/-- Counting handle actions in the adopted-watcher trace shape. -/
theorem count_handle_shape (n : Nat) :
    (Action.setup :: List.replicate n Action.handle ++
      [Action.release, Action.teardown]).count Action.handle = n := by
  induction n with
  | zero => decide
  | succ m ih =>
    rw [List.replicate_succ]
    simp [List.count_cons, ih]

/-- Unfolding of `runWorker` as a function of the loop's outcome. -/
theorem runWorker_eq (h : WatchHandler) (events : List Event) (killed : Bool) :
    runWorker h events killed =
      match loopRun h events
          (if killed then TombReason.latched none else TombReason.stillAlive) with
      | none => none
      | some p =>
        some { actions := p.1,
               waitResult := reasonOf (tombKill (tombKill p.2.2 (some p.2.1)) none) } := by
  cases hl : loopRun h events
      (if killed then TombReason.latched none else TombReason.stillAlive) with
  | none => simp only [runWorker, hl]
  | some p =>
    obtain ⟨acts, r, t1⟩ := p
    simp only [runWorker, hl]

/-! Concrete handler behaviours used to instantiate the theorems, mirroring
the configurations of the repository's `ActionsHandler` tests. -/

/-- Handler whose setup, handling and release all succeed. -/
def cleanHandler : WatchHandler :=
  { setupWatcher := true, setupErr := none,
    handleErr := fun _ => none, releaseErr := none }

/-- Handler whose watcher release fails. -/
def releaseFailHandler : WatchHandler :=
  { setupWatcher := true, setupErr := none,
    handleErr := fun _ => none,
    releaseErr := some (Err.msg "error while stopping watcher") }

/-- Handler whose `Handle` and watcher release both fail. -/
def bothFailHandler : WatchHandler :=
  { setupWatcher := true, setupErr := none,
    handleErr := fun _ => some (Err.msg "handle failure"),
    releaseErr := some (Err.msg "release failure") }

/-- Handler whose `SetUp` returns neither a watcher nor an error. -/
def nilWatcherHandler : WatchHandler :=
  { setupWatcher := false, setupErr := none,
    handleErr := fun _ => none, releaseErr := none }

/-- Handler whose `SetUp` fails but still hands back a watcher. -/
def setupFailHandler : WatchHandler :=
  { setupWatcher := true, setupErr := some (Err.msg "my special error"),
    handleErr := fun _ => none,
    releaseErr := some (Err.msg "ignored release error") }

/-- Handler whose second `Handle` call fails. -/
def handleFailHandler : WatchHandler :=
  { setupWatcher := true, setupErr := none,
    handleErr := fun k => if k = 1 then some (Err.msg "my handling error") else none,
    releaseErr := none }

/-- C1 counterexample: a single change notification whose `Handle` call fails
with "handle failure", followed by a failing release ("release failure").
`Wait()` returns the release error, not the `Handle` error, refuting the
claim that the watcher-release failure never overrides a Handle failure: the
deferred release latches its error into the death recorder before the loop's
return value reaches `tomb.Kill`, and the first latched real error wins. -/
theorem release_error_masks_handle_error_cex :
    runWorker bothFailHandler [Event.change] false =
      some { actions := [Action.setup, Action.handle, Action.release,
                         Action.teardown],
             waitResult := some (Err.msg "release failure") } ∧
    (Err.msg "release failure" : Err) ≠ Err.msg "handle failure" :=
  ⟨rfl, by decide⟩

/-- C1 (amended): if `Handle` fails with `E` on the (k+1)-th notification and
the watcher's release then fails with `R`, `Wait()` returns `R`, not `E`: the
deferred release runs before the loop's return value reaches the death
recorder, so `R` is latched first and is never overwritten.  (A `SetUp`
failure, by contrast, does survive a release failure, since on that path the
release error is dropped entirely.) -/
theorem release_error_masks_handle_error
    (h : WatchHandler) (k : Nat) (rest : List Event) (E R : Err)
    (hs : h.setupErr = none) (hw : h.setupWatcher = true)
    (hrel : h.releaseErr = some R) (hR : R ≠ Err.errDying)
    (hh : ∀ j, j < k → h.handleErr j = none) (hk : h.handleErr k = some E) :
    runWorker h (List.replicate k Event.change ++ Event.change :: rest) false =
      some { actions := Action.setup :: List.replicate (k + 1) Action.handle ++
               [Action.release, Action.teardown],
             waitResult := some R } := by
  rw [runWorker_eq, loopRun_adopted h _ _ hs hw,
      selectLoop_handle_error h k rest E hh hk]
  simp only [Bool.false_eq_true, if_false, hrel, watcherStop]
  rw [tombKill_stillAlive (some R) (by simp [hR]), tombKill_latched_some,
      tombKill_latched_some]
  rfl

/-- C1 witness for the amended statement, at the concrete both-failures
handler with the failure on the first notification. -/
theorem release_error_masks_handle_error_witness :
    runWorker bothFailHandler
        (List.replicate 0 Event.change ++ Event.change :: []) false =
      some { actions := Action.setup :: List.replicate (0 + 1) Action.handle ++
               [Action.release, Action.teardown],
             waitResult := some (Err.msg "release failure") } :=
  release_error_masks_handle_error bothFailHandler 0 [] (Err.msg "handle failure")
    (Err.msg "release failure") rfl rfl rfl (by decide)
    (fun j hj => absurd hj (Nat.not_lt_zero j)) rfl

/-- C2: if shutdown was requested via `Kill()` (so the loop exits through the
dying channel with the `ErrDying` sentinel) and the watcher's release fails
with `R`, `Wait()` returns `R`: the release failure upgrades the sentinel
clean-shutdown reason. -/
theorem release_error_after_clean_kill
    (h : WatchHandler) (events : List Event) (acts : List Action) (R : Err)
    (hs : h.setupErr = none) (hw : h.setupWatcher = true)
    (hrel : h.releaseErr = some R) (hR : R ≠ Err.errDying)
    (hsel : selectLoop h events 0 = some (acts, Err.errDying)) :
    runWorker h events true =
      some { actions := Action.setup :: acts ++ [Action.release, Action.teardown],
             waitResult := some R } := by
  rw [runWorker_eq, loopRun_adopted h _ _ hs hw, hsel]
  simp only [if_true, hrel, watcherStop]
  rw [tombKill_latched_none (some R) (by simp [hR]), tombKill_errDying,
      tombKill_latched_some]
  rfl

/-- C2 witness: kill immediately, release fails; `Wait()` returns the
release error, matching the repository's watcher-stop-failure test. -/
theorem release_error_after_clean_kill_witness :
    runWorker releaseFailHandler [Event.dying] true =
      some { actions := Action.setup :: [] ++ [Action.release, Action.teardown],
             waitResult := some (Err.msg "error while stopping watcher") } :=
  release_error_after_clean_kill releaseFailHandler [Event.dying] []
    (Err.msg "error while stopping watcher") rfl rfl rfl (by decide) rfl

/-- C3: whenever `SetUp` succeeds with a non-nil watcher and the run
terminates, the trace is setup, then the handle calls, then exactly one
release followed by exactly one teardown — so teardown happens exactly once,
after the last `Handle` call, and the release happens after the last `Handle`
call and before teardown, on every exit path. -/
theorem teardown_once_release_ordered
    (h : WatchHandler) (events : List Event) (killed : Bool) (res : RunResult)
    (hs : h.setupErr = none) (hw : h.setupWatcher = true)
    (hr : runWorker h events killed = some res) :
    (∃ n, res.actions = Action.setup :: List.replicate n Action.handle ++
        [Action.release, Action.teardown]) ∧
    res.actions.count Action.teardown = 1 := by
  rw [runWorker_eq, loopRun_adopted h _ _ hs hw] at hr
  cases hsel : selectLoop h events 0 with
  | none => rw [hsel] at hr; simp at hr
  | some p =>
    rw [hsel] at hr
    obtain ⟨n, hn⟩ := selectLoop_acts_replicate h events 0 p.1 p.2 (by rw [hsel])
    have hres :
        ({ actions := Action.setup :: p.1 ++ [Action.release, Action.teardown],
           waitResult := reasonOf (tombKill (tombKill
             (watcherStop h.releaseErr (if killed then TombReason.latched none
               else TombReason.stillAlive)) (some p.2)) none) } : RunResult) =
          res := Option.some.inj hr
    rw [← hres, hn]
    exact ⟨⟨n, rfl⟩, count_teardown_shape n⟩

/-- C3 witness: the clean handler killed at once has trace
setup, release, teardown. -/
theorem teardown_once_release_ordered_witness :
    (∃ n, ({ actions := [Action.setup, Action.release, Action.teardown],
             waitResult := none } : RunResult).actions =
        Action.setup :: List.replicate n Action.handle ++
          [Action.release, Action.teardown]) ∧
    ({ actions := [Action.setup, Action.release, Action.teardown],
       waitResult := none } : RunResult).actions.count Action.teardown = 1 :=
  teardown_once_release_ordered cleanHandler [Event.dying] true
    { actions := [Action.setup, Action.release, Action.teardown],
      waitResult := none } rfl rfl rfl

/-- C4: if `SetUp` returns neither a watcher nor an error, the loop
terminates with the contract-violation error "SetUp returned a nil Watcher",
`Wait()` returns it, `TearDown` ran exactly once, and no release was
attempted (no release action occurs in the trace). -/
theorem nil_watcher_contract_violation
    (h : WatchHandler) (events : List Event) (killed : Bool)
    (hs : h.setupErr = none) (hw : h.setupWatcher = false) :
    runWorker h events killed =
      some { actions := [Action.setup, Action.teardown],
             waitResult := some (Err.msg "SetUp returned a nil Watcher") } ∧
    Action.release ∉ [Action.setup, Action.teardown] ∧
    [Action.setup, Action.teardown].count Action.teardown = 1 := by
  refine ⟨?_, by decide, by decide⟩
  rw [runWorker_eq]
  have hl : loopRun h events
      (if killed then TombReason.latched none else TombReason.stillAlive) =
      some ([Action.setup, Action.teardown],
            Err.msg "SetUp returned a nil Watcher",
            if killed then TombReason.latched none else TombReason.stillAlive) := by
    unfold loopRun
    rw [hs, hw]
    rfl
  rw [hl]
  cases killed <;> simp [tombKill, reasonOf]

/-- C4 witness at the nil-watcher handler. -/
theorem nil_watcher_contract_violation_witness :
    runWorker nilWatcherHandler [] false =
      some { actions := [Action.setup, Action.teardown],
             waitResult := some (Err.msg "SetUp returned a nil Watcher") } ∧
    Action.release ∉ [Action.setup, Action.teardown] ∧
    [Action.setup, Action.teardown].count Action.teardown = 1 :=
  nil_watcher_contract_violation nilWatcherHandler [] false rfl rfl

/-- C5: if `SetUp` returns a non-nil watcher together with error `e`, the
watcher is released at once (a release action follows setup), the release's
own error is dropped (the conclusion holds whatever `h.releaseErr` is),
`Wait()` returns `e`, and `Handle` is never called. -/
theorem setup_error_releases_watcher
    (h : WatchHandler) (events : List Event) (killed : Bool) (e : Err)
    (hs : h.setupErr = some e) (hw : h.setupWatcher = true)
    (he : e ≠ Err.errDying) :
    runWorker h events killed =
      some { actions := [Action.setup, Action.release, Action.teardown],
             waitResult := some e } ∧
    Action.handle ∉ [Action.setup, Action.release, Action.teardown] := by
  refine ⟨?_, by decide⟩
  rw [runWorker_eq]
  have hl : loopRun h events
      (if killed then TombReason.latched none else TombReason.stillAlive) =
      some ([Action.setup, Action.release, Action.teardown], e,
            if killed then TombReason.latched none else TombReason.stillAlive) := by
    unfold loopRun
    rw [hs, hw]
    rfl
  rw [hl]
  cases killed <;>
    simp [tombKill_stillAlive, tombKill_latched_none, tombKill_latched_some,
          reasonOf, he]

/-- C5 witness at the failing-setup handler, whose release error is set and
visibly dropped. -/
theorem setup_error_releases_watcher_witness :
    runWorker setupFailHandler [] false =
      some { actions := [Action.setup, Action.release, Action.teardown],
             waitResult := some (Err.msg "my special error") } ∧
    Action.handle ∉ [Action.setup, Action.release, Action.teardown] :=
  setup_error_releases_watcher setupFailHandler [] false
    (Err.msg "my special error") rfl rfl (by decide)

/-- C6: for N change notifications delivered before the shutdown request,
with every `Handle` call succeeding, the run calls `Handle` exactly N times,
sequentially (the trace is literally N consecutive handle actions), and ends
cleanly. -/
theorem handle_called_once_per_change
    (h : WatchHandler) (N : Nat)
    (hs : h.setupErr = none) (hw : h.setupWatcher = true)
    (hrel : h.releaseErr = none)
    (hh : ∀ k, k < N → h.handleErr k = none) :
    runWorker h (List.replicate N Event.change ++ [Event.dying]) true =
      some { actions := Action.setup :: List.replicate N Action.handle ++
               [Action.release, Action.teardown],
             waitResult := none } ∧
    (Action.setup :: List.replicate N Action.handle ++
      [Action.release, Action.teardown]).count Action.handle = N := by
  refine ⟨?_, count_handle_shape N⟩
  have hsel : selectLoop h (List.replicate N Event.change ++ [Event.dying]) 0 =
      some (List.replicate N Action.handle, Err.errDying) := by
    rw [selectLoop_replicate h N 0 [Event.dying]
          (by intro i hi; simpa using hh i hi),
        selectLoop_dying]
    simp
  rw [runWorker_eq, loopRun_adopted h _ _ hs hw, hsel]
  simp only [if_true, hrel, watcherStop]
  rw [tombKill_errDying, tombKill_latched_none none (by simp)]
  rfl

/-- C6 witness: two changes then a kill on the clean handler. -/
theorem handle_called_once_per_change_witness :
    runWorker cleanHandler (List.replicate 2 Event.change ++ [Event.dying]) true =
      some { actions := Action.setup :: List.replicate 2 Action.handle ++
               [Action.release, Action.teardown],
             waitResult := none } ∧
    (Action.setup :: List.replicate 2 Action.handle ++
      [Action.release, Action.teardown]).count Action.handle = 2 :=
  handle_called_once_per_change cleanHandler 2 rfl rfl rfl (fun _ _ => rfl)

/-- C7: if `Handle` fails with `E` on the (k+1)-th notification and the
release succeeds, `Wait()` returns `E`, exactly k+1 handle calls occurred,
and the watcher release and teardown both ran, in that order. -/
theorem handle_error_on_kth_notification
    (h : WatchHandler) (k : Nat) (rest : List Event) (killed : Bool) (E : Err)
    (hs : h.setupErr = none) (hw : h.setupWatcher = true)
    (hrel : h.releaseErr = none) (hE : E ≠ Err.errDying)
    (hh : ∀ j, j < k → h.handleErr j = none) (hk : h.handleErr k = some E) :
    runWorker h (List.replicate k Event.change ++ Event.change :: rest) killed =
      some { actions := Action.setup :: List.replicate (k + 1) Action.handle ++
               [Action.release, Action.teardown],
             waitResult := some E } := by
  rw [runWorker_eq, loopRun_adopted h _ _ hs hw,
      selectLoop_handle_error h k rest E hh hk]
  cases killed <;>
    simp [watcherStop, hrel, tombKill_stillAlive, tombKill_latched_none,
          tombKill_latched_some, reasonOf, hE]

/-- C7 witness: the handler failing on its second `Handle` call, matching the
repository's handle-error test shape. -/
theorem handle_error_on_kth_notification_witness :
    runWorker handleFailHandler
        (List.replicate 1 Event.change ++ Event.change :: []) false =
      some { actions := Action.setup :: List.replicate (1 + 1) Action.handle ++
               [Action.release, Action.teardown],
             waitResult := some (Err.msg "my handling error") } :=
  handle_error_on_kth_notification handleFailHandler 1 [] false
    (Err.msg "my handling error") rfl rfl rfl (by decide) (by decide) rfl

/-- C8: the death recorder is a one-shot latch.  A latched real error is
never changed by any later latch attempt (nil, the `ErrDying` sentinel, or
another error); the nil sentinel reason is upgraded to a real error; killing
with nil leaves the sentinel in place; and the value `Wait()` reads is
exactly the latched reason, so every caller observes the same final value. -/
theorem death_latch_one_shot (e latecomer : Err) (r : Option Err)
    (hl : latecomer ≠ Err.errDying) :
    tombKill (TombReason.latched (some e)) r = TombReason.latched (some e) ∧
    tombKill (TombReason.latched none) (some latecomer) =
      TombReason.latched (some latecomer) ∧
    tombKill (TombReason.latched none) none = TombReason.latched none ∧
    reasonOf (TombReason.latched (some e)) = some e := by
  refine ⟨tombKill_latched_some e r, ?_, ?_, rfl⟩
  · exact tombKill_latched_none (some latecomer) (by simp [hl])
  · exact tombKill_latched_none none (by simp)

/-- C8 witness at concrete errors. -/
theorem death_latch_one_shot_witness :
    tombKill (TombReason.latched (some (Err.msg "boom"))) none =
      TombReason.latched (some (Err.msg "boom")) ∧
    tombKill (TombReason.latched none) (some (Err.msg "late")) =
      TombReason.latched (some (Err.msg "late")) ∧
    tombKill (TombReason.latched none) none = TombReason.latched none ∧
    reasonOf (TombReason.latched (some (Err.msg "boom"))) =
      some (Err.msg "boom") :=
  death_latch_one_shot (Err.msg "boom") (Err.msg "late") none (by decide)

/-- C9: `Stop()` is exactly `Kill()` followed by `Wait()`: on every observer
state it changes the tomb the way `Kill` does and returns what `Wait` then
returns. -/
theorem stop_is_kill_then_wait (t : TombState) :
    workerStopOp t = (workerKillOp t, workerWaitOp (workerKillOp t)) := rfl

end NotifyWorker

namespace LoggerAPI

/-- C10: in `LoggingConfig`, for every authorized entity, when fetching the
environ config succeeds (`configErr = none`) the per-entity result string is
left empty and the error is nil, and the config's logging value is copied
into the result only on the branch where the fetch failed — the
success/failure condition is inverted. -/
theorem logging_config_inverted_branch
    (authOwner : String → Bool) (ce : NotifyWorker.Err) (lv tag : String)
    (ha : authOwner tag = true) :
    loggingConfigEntry authOwner none lv tag = { result := "", error := none } ∧
    loggingConfigEntry authOwner (some ce) lv tag =
      { result := lv, error := none } ∧
    LoggingConfig authOwner none lv [tag] = [{ result := "", error := none }] := by
  unfold LoggingConfig loggingConfigEntry
  simp [ha]

/-- C10 witness: a single authorized machine agent. -/
theorem logging_config_inverted_branch_witness :
    loggingConfigEntry (fun _ => true) none "cfg" "machine-0" =
      { result := "", error := none } ∧
    loggingConfigEntry (fun _ => true) (some (NotifyWorker.Err.msg "no state"))
        "cfg" "machine-0" = { result := "cfg", error := none } ∧
    LoggingConfig (fun _ => true) none "cfg" ["machine-0"] =
      [{ result := "", error := none }] :=
  logging_config_inverted_branch (fun _ => true) (NotifyWorker.Err.msg "no state")
    "cfg" "machine-0" rfl

end LoggerAPI
